import Mathlib

/-!
Shallow embedding of the Veo-Minacast front end (src/index.tsx) for
verification of its job-polling, download, error-classification and
UI-state behaviour.  External collaborators (the provider, fetch, the
tick schedule of the 4-second message interval) are passed in as
scripted parameters; DOM writes become events folded into a UIState.
-/

namespace Veo

/-- Opening brace character, by code point. -/
def lbrace : Char := Char.ofNat 123

/-- Closing brace character, by code point. -/
def rbrace : Char := Char.ofNat 125

/-- The whitespace set recognised by the JavaScript String.trim method
(WhiteSpace and LineTerminator code points; the common ones). -/
def isJsWhitespace (c : Char) : Bool :=
  c = Char.ofNat 9 || c = Char.ofNat 10 || c = Char.ofNat 11 ||
  c = Char.ofNat 12 || c = Char.ofNat 13 || c = ' ' ||
  c = Char.ofNat 160 || c = Char.ofNat 0xfeff ||
  c = Char.ofNat 0x2028 || c = Char.ofNat 0x2029

/-- JavaScript String.prototype.trim: strip whitespace from both ends. -/
def jsTrim (s : String) : String :=
  String.mk (((s.data.dropWhile isJsWhitespace).reverse.dropWhile
    isJsWhitespace).reverse)

/-- ASCII lower-casing of one character, as toLowerCase acts on the
ASCII range (the tokens matched by the code are ASCII). -/
def lowerChar (c : Char) : Char :=
  if 'A' ≤ c && c ≤ 'Z' then Char.ofNat (c.toNat + 32) else c

/-- JavaScript toLowerCase, restricted to the ASCII range. -/
def toLowerAscii (s : String) : String := String.mk (s.data.map lowerChar)

/-- Does the character list `sub` occur contiguously inside `l`? -/
def hasSubstr (sub : List Char) : List Char → Bool
  | [] => sub.isEmpty
  | c :: t => sub.isPrefixOf (c :: t) || hasSubstr sub t

/-- JavaScript String.prototype.includes. -/
def includesStr (s sub : String) : Bool := hasSubstr sub.data s.data

/-- JavaScript String.prototype.startsWith, at the character level. -/
def jsStartsWith (s pre : String) : Bool := pre.data.isPrefixOf s.data

/-- Numeric value of a hexadecimal digit, computed on the code
point: 48-57 are the digits, 97-102 and 65-70 the two letter
ranges. -/
def hexVal (c : Char) : Option Nat :=
  let n := c.toNat
  if 48 ≤ n && n ≤ 57 then some (n - 48)
  else if 97 ≤ n && n ≤ 102 then some (n - 87)
  else if 65 ≤ n && n ≤ 70 then some (n - 55)
  else none

/-- Percent-decoding as performed by decodeURIComponent, modelled for
single-byte escape sequences (a malformed escape is kept as-is instead
of raising URIError; multi-byte UTF-8 assembly is not modelled as no
claim depends on it). -/
def pctDecode : List Char → List Char
  | [] => []
  | '%' :: a :: b :: rest =>
    match hexVal a, hexVal b with
    | some x, some y => Char.ofNat (16 * x + y) :: pctDecode rest
    | _, _ => '%' :: pctDecode (a :: b :: rest)
  | c :: rest => c :: pctDecode rest

/-- decodeURIComponent on strings. -/
def decodeStr (s : String) : String := String.mk (pctDecode s.data)

/-- One generated video as exposed by the provider: v.video.uri. -/
structure Video where
  uri : String
deriving Repr, DecidableEq

/-- A provider operation value: done flag plus
response?.generatedVideos (the two optional layers flattened into one:
none means the response or its generatedVideos field is absent). -/
structure Operation where
  done : Bool
  response : Option (List Video)
deriving Repr, DecidableEq

/-- A fetch response: ok flag, status, statusText, body text, and the
blob payload (abstract bytes). -/
structure FetchResponse where
  ok : Bool
  status : Nat
  statusText : String
  bodyText : String
  blob : String
deriving Repr, DecidableEq

/-- URL.createObjectURL, modelled as tagging the blob bytes. -/
def createObjectURL (blob : String) : String := "blob:" ++ blob

/-- The image payload attached to a request. -/
structure ImagePayload where
  imageBytes : String
  mimeType : String
deriving Repr, DecidableEq

/-- The GenerateVideosParameters record built by generateContent. -/
structure GenerateVideosParameters where
  model : String
  prompt : String
  numberOfVideos : Nat
  image : Option ImagePayload
deriving Repr, DecidableEq

/-- The config object built in generateContent (src/index.tsx lines
66-79): fixed model, the prompt, numberOfVideos 1, and the image
payload with mimeType image/png exactly when imageBytes is truthy
(a nonempty string). -/
def buildConfig (prompt imageBytes : String) : GenerateVideosParameters :=
  let base : GenerateVideosParameters :=
    { model := "veo-2.0-generate-001", prompt := prompt,
      numberOfVideos := 1, image := none }
  if imageBytes.isEmpty then base
  else { base with image := some ⟨imageBytes, "image/png"⟩ }

/-- The rotating progress messages (src/index.tsx lines 10-18). -/
def GENERATION_MESSAGES : List String :=
  ["Warming up the video engine...",
   "Storyboarding your prompt...",
   "Consulting with the digital muses...",
   "Rendering the first few frames...",
   "This is taking a moment, hang tight...",
   "Adding a touch of cinematic magic...",
   "Almost there, polishing the final cut..."]

/-- Observable events of one generation attempt: DOM writes, the
reporter interval lifecycle, provider interactions and downloads. -/
inductive Event where
  | setStatus (msg : String)
  | reporterTick (msg : String)
  | setVideoDisplay (d : String)
  | setVideoSrc (url : String)
  | setGenerateDisabled (b : Bool)
  | setUploadDisabled (b : Bool)
  | setPromptDisabled (b : Bool)
  | setButtonText (t : String)
  | setSpinnerHidden (b : Bool)
  | setQuotaDisplay (d : String)
  | showModal
  | submitRequest (cfg : GenerateVideosParameters)
  | intervalSet
  | intervalCleared
  | pollWait
  | fetchAttempt (i : Nat) (url : String)
  | logError (s : String)
  | handOff (filename : String)
deriving Repr, DecidableEq

/-- The k reporter callback invocations that fire while the interval
is live, starting at message index idx: each tick shows
GENERATION_MESSAGES[messageIndex % length] (src/index.tsx lines
83-87). -/
def ticksFrom (idx k : Nat) : List Event :=
  (List.range k).map fun j =>
    Event.reporterTick
      (GENERATION_MESSAGES.getD ((idx + j) % GENERATION_MESSAGES.length) "")

/-- A tick schedule: how many 4-second reporter ticks fire at each
cooperative suspension point, plus the running message index. -/
abbrev Ticker := List Nat × Nat

/-- Consume one suspension point of the tick schedule. -/
def takeTicks : Ticker → List Event × Ticker
  | ([], idx) => ([], ([], idx))
  | (k :: rest, idx) => (ticksFrom idx k, (rest, idx + k))

/-- The poll loop (src/index.tsx lines 90-94): while the operation is
not done, wait one second (reporter ticks may fire) and re-query the
status.  polls scripts the successive getVideosOperation outcomes
(a Left entry is a thrown network error); none means the script ran
out while the job was still pending (the real loop is unbounded). -/
def pollLoop (op : Operation) (tk : Ticker)
    (polls : List (Except String Operation)) :
    Option (List Event × Ticker × Except String Operation) :=
  if op.done then some ([], tk, Except.ok op)
  else
    match polls with
    | [] => none
    | p :: rest =>
      let t := takeTicks tk
      match p with
      | Except.error e => some (t.1 ++ [Event.pollWait], t.2, Except.error e)
      | Except.ok op2 =>
        match pollLoop op2 t.2 rest with
        | none => none
        | some (evs, tk2, r) =>
          some (t.1 ++ Event.pollWait :: evs, tk2, r)

/-- The sequential download loop (src/index.tsx lines 101-121): for
each video in order, build the authenticated URL from the decoded uri,
fetch it (fetchFn scripts the outcome; a Left entry is a thrown
network error), and on a non-ok response log the body text and throw
with status and statusText; on success hand the object URL off for
download and load it into the playback element. -/
def downloadLoop (key : String)
    (fetchFn : String → Except String FetchResponse) (tk : Ticker)
    (videos : List Video) (i : Nat) :
    List Event × Ticker × Except String Unit :=
  match videos with
  | [] => ([], tk, Except.ok ())
  | v :: rest =>
    let url := decodeStr v.uri ++ "&key=" ++ key
    let t1 := takeTicks tk
    match fetchFn url with
    | Except.error e =>
      (Event.fetchAttempt i url :: t1.1, t1.2, Except.error e)
    | Except.ok res =>
      if res.ok then
        let t2 := takeTicks t1.2
        let objectURL := createObjectURL res.blob
        let here := Event.fetchAttempt i url :: t1.1 ++ t2.1 ++
          [Event.handOff ("video" ++ toString i ++ ".mp4"),
           Event.setVideoSrc objectURL, Event.setVideoDisplay "block"]
        let x := downloadLoop key fetchFn t2.2 rest (i + 1)
        (here ++ x.1, x.2.1, x.2.2)
      else
        let t2 := takeTicks t1.2
        (Event.fetchAttempt i url :: t1.1 ++ t2.1 ++
           [Event.logError res.bodyText],
         t2.2,
         Except.error ("Failed to download video: " ++ toString res.status
           ++ " " ++ res.statusText))

/-- What the try block does once the poll loop has resolved
(src/index.tsx lines 96-121): propagate a thrown poll error, fail on
an absent or empty video list, otherwise run the download loop. -/
def contentBody (key : String)
    (fetchFn : String → Except String FetchResponse) (tk : Ticker)
    (pollRes : Except String Operation) : List Event × Except String Unit :=
  match pollRes with
  | Except.error e => ([], Except.error e)
  | Except.ok fin =>
    match fin.response with
    | none => ([], Except.error "No videos generated")
    | some vids =>
      if vids.length = 0 then ([], Except.error "No videos generated")
      else
        let x := downloadLoop key fetchFn tk vids 0
        (x.1, x.2.2)

/-- generateContent (src/index.tsx lines 56-125).  apiKey is the
resolved credential (none models getApiKey failing); submit scripts
ai.models.generateVideos; polls scripts the successive poll outcomes;
fetchFn scripts fetch; tick counts at suspension points come from
sched.  Returns none when the poll script is exhausted while pending
(the real loop would still be running), otherwise the event trace and
the result (Left is a thrown error message).  The message interval is
set after submission and cleared in the finally block on every path
out of the try. -/
def generateContent (apiKey : Option String) (prompt imageBytes : String)
    (submit : GenerateVideosParameters → Except String Operation)
    (polls : List (Except String Operation))
    (fetchFn : String → Except String FetchResponse)
    (sched : List Nat) :
    Option (List Event × Except String Unit) :=
  match apiKey with
  | none =>
    some ([Event.setStatus "Please add your Gemini API key in the settings.",
           Event.showModal],
          Except.error "API key not found.")
  | some key =>
    let cfg := buildConfig prompt imageBytes
    match submit cfg with
    | Except.error e => some ([Event.submitRequest cfg], Except.error e)
    | Except.ok op0 =>
      match pollLoop op0 (sched, 0) polls with
      | none => none
      | some (pollEvs, tk, pollRes) =>
        let body := contentBody key fetchFn tk pollRes
        some (Event.submitRequest cfg :: Event.intervalSet ::
                (pollEvs ++ body.1 ++ [Event.intervalCleared]),
              body.2)

/-- The three-way classification applied to a caught error message in
generate (src/index.tsx lines 250-258): substring matching only. -/
inductive ErrClass where
  | quota
  | badKey
  | other (msg : String)
deriving Repr, DecidableEq

/-- Error classification as the code performs it (src/index.tsx lines
250-258): includes 429 or lower-cased includes quota; else includes
400 or lower-cased includes api key; else the raw message. -/
def classifyMessage (m : String) : ErrClass :=
  if includesStr m "429" || includesStr (toLowerAscii m) "quota" then
    ErrClass.quota
  else if includesStr m "400" || includesStr (toLowerAscii m) "api key" then
    ErrClass.badKey
  else ErrClass.other m

/-- The in-flight UI setup of generate (src/index.tsx lines 231-239). -/
def genPre : List Event :=
  [Event.setStatus "Initializing...", Event.setVideoDisplay "none",
   Event.setGenerateDisabled true, Event.setButtonText "Generating...",
   Event.setSpinnerHidden false, Event.setUploadDisabled true,
   Event.setPromptDisabled true, Event.setQuotaDisplay "none"]

/-- The outcome handling of generate (src/index.tsx lines 245-258):
on success report done; on failure classify the message (an empty
message falls back to a generic one, mirroring e.message being falsy)
and render the corresponding UI reaction. -/
def genHandled : Except String Unit → List Event
  | Except.ok _ => [Event.setStatus "Done. Video downloaded."]
  | Except.error msg =>
    let m := if msg = "" then "An unknown error occurred." else msg
    match classifyMessage m with
    | ErrClass.quota =>
      [Event.setQuotaDisplay "block",
       Event.setStatus
         "Quota limit reached. Please try again later or add your own API key."]
    | ErrClass.badKey =>
      [Event.setStatus
         "Request failed. Please check your API key and prompt, then try again.",
       Event.showModal]
    | ErrClass.other m2 => [Event.setStatus m2]

/-- The control re-enabling tail of generate (src/index.tsx lines
261-265). -/
def genPost : List Event :=
  [Event.setGenerateDisabled false, Event.setButtonText "Generate",
   Event.setSpinnerHidden true, Event.setUploadDisabled false,
   Event.setPromptDisabled false]

/-- generate (src/index.tsx lines 226-266): guard on a blank prompt,
set the in-flight UI, run generateContent, classify a caught error,
and re-enable the controls.  The status callback handed to
generateContent writes statusEl, which is how reporterTick events act
on the UI state below. -/
def generate (prompt base64data : String) (apiKey : Option String)
    (submit : GenerateVideosParameters → Except String Operation)
    (polls : List (Except String Operation))
    (fetchFn : String → Except String FetchResponse)
    (sched : List Nat) : Option (List Event) :=
  if jsTrim prompt = "" then some [Event.setStatus "Please enter a prompt."]
  else
    match generateContent apiKey prompt base64data submit polls fetchFn
        sched with
    | none => none
    | some (evs, res) => some (genPre ++ evs ++ genHandled res ++ genPost)

/-- The DOM state the events act on. -/
structure UIState where
  statusText : String
  videoDisplay : String
  videoSrc : String
  generateDisabled : Bool
  uploadDisabled : Bool
  promptDisabled : Bool
  buttonText : String
  spinnerHidden : Bool
  quotaDisplay : String
  modalHidden : Bool
deriving Repr, DecidableEq

/-- Apply one event to the DOM state.  reporterTick writes statusText
because generate passes a callback that assigns statusEl.innerText. -/
def applyEvent (s : UIState) : Event → UIState
  | Event.setStatus m => { s with statusText := m }
  | Event.reporterTick m => { s with statusText := m }
  | Event.setVideoDisplay d => { s with videoDisplay := d }
  | Event.setVideoSrc u => { s with videoSrc := u }
  | Event.setGenerateDisabled b => { s with generateDisabled := b }
  | Event.setUploadDisabled b => { s with uploadDisabled := b }
  | Event.setPromptDisabled b => { s with promptDisabled := b }
  | Event.setButtonText t => { s with buttonText := t }
  | Event.setSpinnerHidden b => { s with spinnerHidden := b }
  | Event.setQuotaDisplay d => { s with quotaDisplay := d }
  | Event.showModal => { s with modalHidden := false }
  | _ => s

/-- Fold an event trace into the DOM state. -/
def runEvents (s : UIState) (evs : List Event) : UIState :=
  evs.foldl applyEvent s

/-- The save-key click handler (src/index.tsx lines 212-223): trim the
input; a truthy (nonempty) result is stored, otherwise the stored
credential is removed.  The argument store is the previous stored
value of the single storage key; the result is the new stored value. -/
def saveKeyClick (input : String) (_store : Option String) : Option String :=
  let key := jsTrim input
  if key = "" then none else some key

/-- A selected file as handleFile sees it: its MIME type string and
its content (abstract bytes). -/
structure JSFile where
  type : String
  content : String
deriving Repr, DecidableEq

/-- handleFile (src/index.tsx lines 165-174): a file whose type starts
with image/ is accepted and its base64 encoding replaces the current
reference-image payload; any other file leaves it unchanged.  enc
models blobToBase64. -/
def handleFile (enc : String → String) (f : JSFile) (base64data : String) :
    String :=
  if jsStartsWith f.type "image/" then enc f.content else base64data

/-- Filenames handed off for local download, in trace order. -/
def handOffs (evs : List Event) : List String :=
  evs.filterMap fun e =>
    match e with
    | Event.handOff f => some f
    | _ => none

/-- URLs of download attempts, in trace order. -/
def fetchUrls (evs : List Event) : List String :=
  evs.filterMap fun e =>
    match e with
    | Event.fetchAttempt _ u => some u
    | _ => none

/-- Recogniser for the poll-wait event. -/
def isPollWait : Event → Bool
  | Event.pollWait => true
  | _ => false

/-- Number of status re-queries in a trace. -/
def countPollWaits (evs : List Event) : Nat := evs.countP isPollWait

/-- The first provider status of a scripted run: the head of the
pending reports, or the terminal status when there are none (this is
what the submission call returns). -/
def firstStatus (pendings : List Operation) (fin : Operation) : Operation :=
  pendings.headD fin

/-- The later provider statuses of a scripted run, as the poll script:
the remaining pending reports followed by the terminal status. -/
def laterStatuses (pendings : List Operation) (fin : Operation) :
    List (Except String Operation) :=
  match pendings with
  | [] => []
  | _ :: t => (t ++ [fin]).map Except.ok

/-- The event shapes a download-loop trace can contain. -/
def dlShape (e : Event) : Prop :=
  (∃ j u, e = Event.fetchAttempt j u) ∨ (∃ m, e = Event.reporterTick m) ∨
  (∃ s, e = Event.logError s) ∨ (∃ n, e = Event.handOff n) ∨
  (∃ u, e = Event.setVideoSrc u) ∨ e = Event.setVideoDisplay "block"

/-- Recogniser for a download attempt at a given result index. -/
def isFetchIdx (i : Nat) : Event → Bool
  | Event.fetchAttempt j _ => j == i
  | _ => false

/-- Number of download attempts made for result index i. -/
def countFetchIdx (i : Nat) (evs : List Event) : Nat :=
  evs.countP (isFetchIdx i)

/-- Drop leading JavaScript whitespace. -/
def skipWs (l : List Char) : List Char := l.dropWhile isJsWhitespace

/-- Expect the literal token at the head of the input, returning the
remainder. -/
def expectTok (tok : String) (l : List Char) : Option (List Char) :=
  if tok.data.isPrefixOf l then some (l.drop tok.length) else none

/-- Accumulate a run of leading decimal digits. -/
def digitsAux : List Char → Nat → Nat × List Char
  | [], acc => (acc, [])
  | c :: rest, acc =>
    if '0' ≤ c && c ≤ '9' then
      digitsAux rest (acc * 10 + (c.toNat - '0'.toNat))
    else (acc, c :: rest)

/-- Parse a nonempty run of decimal digits. -/
def parseNat (l : List Char) : Option (Nat × List Char) :=
  match l with
  | [] => none
  | c :: rest =>
    if '0' ≤ c && c ≤ '9' then some (digitsAux rest (c.toNat - '0'.toNat))
    else none

/-- Scan a plain string-literal body up to the closing quote. -/
def takeUntilQuote : List Char → Option (List Char × List Char)
  | [] => none
  | c :: rest =>
    if c = '"' then some ([], rest)
    else
      match takeUntilQuote rest with
      | none => none
      | some (s, r) => some (c :: s, r)

/-- Modelled from the spec: section 4.4 says classification first
attempts to parse the message text as structured data of shape
\x7berror: \x7bcode, message\x7d\x7d.  src/index.tsx performs no such
parse, so this definition follows the spec words for the refinement
comparison: it accepts the canonical JSON rendering of that shape and
returns the code and message fields. -/
def specParseError (m : String) : Option (Nat × String) := do
  let a1 ← expectTok "\x7b" (skipWs m.data)
  let a2 ← expectTok "\"error\"" (skipWs a1)
  let a3 ← expectTok ":" (skipWs a2)
  let a4 ← expectTok "\x7b" (skipWs a3)
  let a5 ← expectTok "\"code\"" (skipWs a4)
  let a6 ← expectTok ":" (skipWs a5)
  let (code, a7) ← parseNat (skipWs a6)
  let a8 ← expectTok "," (skipWs a7)
  let a9 ← expectTok "\"message\"" (skipWs a8)
  let a10 ← expectTok ":" (skipWs a9)
  let a11 ← expectTok "\"" (skipWs a10)
  let (msg, a12) ← takeUntilQuote a11
  let a13 ← expectTok "\x7d" (skipWs a12)
  let a14 ← expectTok "\x7d" (skipWs a13)
  if (skipWs a14).isEmpty then some (code, String.mk msg) else none

/-- Modelled from the spec: the two-tier classification of section
4.4 — structured parse first (429 to quota, 400 to bad credential,
anything else surfaces the structured message), substring fallback
only when the parse fails. -/
def specClassifyTwoTier (m : String) : ErrClass :=
  match specParseError m with
  | some (429, _) => ErrClass.quota
  | some (400, _) => ErrClass.badKey
  | some (_, msg) => ErrClass.other msg
  | none => classifyMessage m

/-- A structured provider error payload with an unclassified code,
used to compare the spec classification with the code. -/
def c1msg : String :=
  "\x7b\"error\":\x7b\"code\":500,\"message\":\"internal\"\x7d\x7d"

/-! ### Shape lemmas about event traces -/

theorem ticksFrom_shape {idx k : Nat} :
    ∀ e ∈ ticksFrom idx k, ∃ m, e = Event.reporterTick m := by
  intro e he
  simp only [ticksFrom, List.mem_map] at he
  obtain ⟨j, -, rfl⟩ := he
  exact ⟨_, rfl⟩

theorem takeTicks_shape {tk : Ticker} :
    ∀ e ∈ (takeTicks tk).1, ∃ m, e = Event.reporterTick m := by
  obtain ⟨sched, idx⟩ := tk
  cases sched with
  | nil => intro e he; simp [takeTicks] at he
  | cons k rest => exact ticksFrom_shape

theorem pollLoop_done {op : Operation} {tk : Ticker}
    {polls : List (Except String Operation)} (h : op.done = true) :
    pollLoop op tk polls = some ([], tk, Except.ok op) := by
  cases polls <;> simp [pollLoop, h]

theorem pollLoop_pending_nil {op : Operation} {tk : Ticker}
    (h : op.done = false) : pollLoop op tk [] = none := by
  simp [pollLoop, h]

theorem pollLoop_pending_error {op : Operation} {tk : Ticker} {e : String}
    {rest : List (Except String Operation)} (h : op.done = false) :
    pollLoop op tk (Except.error e :: rest) =
      some ((takeTicks tk).1 ++ [Event.pollWait], (takeTicks tk).2,
        Except.error e) := by
  simp [pollLoop, h]

theorem pollLoop_pending_ok {op op2 : Operation} {tk : Ticker}
    {rest : List (Except String Operation)} (h : op.done = false) :
    pollLoop op tk (Except.ok op2 :: rest) =
      match pollLoop op2 (takeTicks tk).2 rest with
      | none => none
      | some (evs, tk2, r) =>
        some ((takeTicks tk).1 ++ Event.pollWait :: evs, tk2, r) := by
  simp [pollLoop, h]

theorem pollLoop_shape {op : Operation} {tk : Ticker}
    {polls : List (Except String Operation)} {evs : List Event}
    {tk2 : Ticker} {r : Except String Operation}
    (h : pollLoop op tk polls = some (evs, tk2, r)) :
    ∀ e ∈ evs, e = Event.pollWait ∨ ∃ m, e = Event.reporterTick m := by
  induction polls generalizing op tk evs tk2 r with
  | nil =>
    cases hd : op.done with
    | true =>
      rw [pollLoop_done hd] at h
      simp only [Option.some.injEq, Prod.mk.injEq] at h
      obtain ⟨rfl, -, -⟩ := h
      intro e he; simp at he
    | false =>
      rw [pollLoop_pending_nil hd] at h
      exact absurd h (by simp)
  | cons p rest ih =>
    cases hd : op.done with
    | true =>
      rw [pollLoop_done hd] at h
      simp only [Option.some.injEq, Prod.mk.injEq] at h
      obtain ⟨rfl, -, -⟩ := h
      intro e he; simp at he
    | false =>
      cases p with
      | error e0 =>
        rw [pollLoop_pending_error hd] at h
        simp only [Option.some.injEq, Prod.mk.injEq] at h
        obtain ⟨rfl, -, -⟩ := h
        intro e he
        rcases List.mem_append.mp he with h1 | h1
        · exact Or.inr (takeTicks_shape e h1)
        · simp at h1; exact Or.inl h1
      | ok op2 =>
        rw [pollLoop_pending_ok hd] at h
        cases hrec : pollLoop op2 (takeTicks tk).2 rest with
        | none => rw [hrec] at h; exact absurd h (by simp)
        | some x =>
          obtain ⟨evs0, tk0, r0⟩ := x
          rw [hrec] at h
          simp only [Option.some.injEq, Prod.mk.injEq] at h
          obtain ⟨rfl, -, -⟩ := h
          intro e he
          rcases List.mem_append.mp he with h1 | h1
          · exact Or.inr (takeTicks_shape e h1)
          · rcases List.mem_cons.mp h1 with h2 | h2
            · exact Or.inl h2
            · exact ih hrec e h2

theorem downloadLoop_shape {key : String}
    {fetchFn : String → Except String FetchResponse} {tk : Ticker}
    {videos : List Video} {i : Nat} :
    ∀ e ∈ (downloadLoop key fetchFn tk videos i).1, dlShape e := by
  induction videos generalizing tk i with
  | nil => intro e he; simp [downloadLoop] at he
  | cons v rest ih =>
    intro e he
    rw [downloadLoop] at he
    cases hf : fetchFn (decodeStr v.uri ++ "&key=" ++ key) with
    | error e0 =>
      rw [hf] at he
      rcases List.mem_cons.mp he with h1 | h1
      · exact Or.inl ⟨_, _, h1⟩
      · obtain ⟨m, rfl⟩ := takeTicks_shape e h1
        exact Or.inr (Or.inl ⟨m, rfl⟩)
    | ok res =>
      rw [hf] at he
      by_cases hok : res.ok
      · simp only [hok, if_true] at he
        rcases List.mem_append.mp he with h1 | h1
        · rcases List.mem_cons.mp h1 with h2 | h2
          · exact Or.inl ⟨_, _, h2⟩
          · rcases List.mem_append.mp h2 with h3 | h3
            · rcases List.mem_append.mp h3 with h4 | h4
              · obtain ⟨m, rfl⟩ := takeTicks_shape e h4
                exact Or.inr (Or.inl ⟨m, rfl⟩)
              · obtain ⟨m, rfl⟩ := takeTicks_shape e h4
                exact Or.inr (Or.inl ⟨m, rfl⟩)
            · simp only [List.mem_cons, List.not_mem_nil, or_false] at h3
              rcases h3 with h4 | h4 | h4
              · exact Or.inr (Or.inr (Or.inr (Or.inl ⟨_, h4⟩)))
              · exact Or.inr (Or.inr (Or.inr (Or.inr (Or.inl ⟨_, h4⟩))))
              · exact Or.inr (Or.inr (Or.inr (Or.inr (Or.inr h4))))
        · exact ih e h1
      · simp only [hok, if_false] at he
        rcases List.mem_cons.mp he with h1 | h1
        · exact Or.inl ⟨_, _, h1⟩
        · rcases List.mem_append.mp h1 with h2 | h2
          · rcases List.mem_append.mp h2 with h3 | h3
            · obtain ⟨m, rfl⟩ := takeTicks_shape e h3
              exact Or.inr (Or.inl ⟨m, rfl⟩)
            · obtain ⟨m, rfl⟩ := takeTicks_shape e h3
              exact Or.inr (Or.inl ⟨m, rfl⟩)
          · simp only [List.mem_cons, List.not_mem_nil, or_false] at h2
            exact Or.inr (Or.inr (Or.inl ⟨_, h2⟩))

/-! ### Counting and projection helpers -/

theorem countPollWaits_takeTicks {tk : Ticker} :
    countPollWaits (takeTicks tk).1 = 0 := by
  apply List.countP_eq_zero.mpr
  intro e he
  obtain ⟨m, rfl⟩ := takeTicks_shape e he
  simp [isPollWait]

theorem handOffs_takeTicks {tk : Ticker} : handOffs (takeTicks tk).1 = [] := by
  apply List.filterMap_eq_nil_iff.mpr
  intro e he
  obtain ⟨m, rfl⟩ := takeTicks_shape e he
  rfl

theorem fetchUrls_takeTicks {tk : Ticker} :
    fetchUrls (takeTicks tk).1 = [] := by
  apply List.filterMap_eq_nil_iff.mpr
  intro e he
  obtain ⟨m, rfl⟩ := takeTicks_shape e he
  rfl

theorem handOffs_pollLoop {op : Operation} {tk : Ticker}
    {polls : List (Except String Operation)} {evs : List Event}
    {tk2 : Ticker} {r : Except String Operation}
    (h : pollLoop op tk polls = some (evs, tk2, r)) : handOffs evs = [] := by
  apply List.filterMap_eq_nil_iff.mpr
  intro e he
  rcases pollLoop_shape h e he with rfl | ⟨m, rfl⟩ <;> rfl

theorem fetchUrls_pollLoop {op : Operation} {tk : Ticker}
    {polls : List (Except String Operation)} {evs : List Event}
    {tk2 : Ticker} {r : Except String Operation}
    (h : pollLoop op tk polls = some (evs, tk2, r)) : fetchUrls evs = [] := by
  apply List.filterMap_eq_nil_iff.mpr
  intro e he
  rcases pollLoop_shape h e he with rfl | ⟨m, rfl⟩ <;> rfl

/-! ### The scripted provider -/

theorem laterStatuses_cons {p : Operation} {t : List Operation}
    {fin : Operation} :
    laterStatuses (p :: t) fin =
      Except.ok (firstStatus t fin) :: laterStatuses t fin := by
  cases t <;> simp [laterStatuses, firstStatus]

/-- Running the poll loop against a script of pending reports followed
by a terminal status reaches that status with one re-query per pending
report. -/
theorem pollLoop_script {fin : Operation} (hfin : fin.done = true) :
    ∀ (pendings : List Operation) (tk : Ticker),
      (∀ op ∈ pendings, op.done = false) →
      ∃ evs tk2,
        pollLoop (firstStatus pendings fin) tk (laterStatuses pendings fin) =
            some (evs, tk2, Except.ok fin) ∧
          countPollWaits evs = pendings.length := by
  intro pendings
  induction pendings with
  | nil =>
    intro tk _
    exact ⟨[], tk, by simp [firstStatus, laterStatuses, pollLoop_done hfin],
      rfl⟩
  | cons p t ih =>
    intro tk hp
    obtain ⟨evs, tk2, hrun, hcount⟩ :=
      ih (takeTicks tk).2 (fun op h => hp op (List.mem_cons_of_mem _ h))
    have hpd : p.done = false := hp p (List.mem_cons_self p t)
    refine ⟨(takeTicks tk).1 ++ Event.pollWait :: evs, tk2, ?_, ?_⟩
    · have hfs : firstStatus (p :: t) fin = p := rfl
      rw [hfs, laterStatuses_cons, pollLoop_pending_ok hpd, hrun]
    · have h0 : countPollWaits (takeTicks tk).1 = 0 := countPollWaits_takeTicks
      simp only [countPollWaits, List.countP_append, List.countP_cons,
        isPollWait, if_true, List.length_cons] at h0 hcount ⊢
      omega

/-- When every fetch succeeds, the download loop materializes every
video, handing off video i, video i+1, ... in provider order. -/
theorem downloadLoop_all_ok {key : String}
    {fetchFn : String → Except String FetchResponse}
    (hf : ∀ u, ∃ r, fetchFn u = Except.ok r ∧ r.ok = true) :
    ∀ (videos : List Video) (tk : Ticker) (i : Nat),
      (downloadLoop key fetchFn tk videos i).2.2 = Except.ok () ∧
        handOffs (downloadLoop key fetchFn tk videos i).1 =
          (List.range' i videos.length).map
            (fun j => "video" ++ toString j ++ ".mp4") ∧
        fetchUrls (downloadLoop key fetchFn tk videos i).1 =
          videos.map (fun v => decodeStr v.uri ++ "&key=" ++ key) := by
  intro videos
  induction videos with
  | nil => intro tk i; simp [downloadLoop, handOffs, fetchUrls]
  | cons v rest ih =>
    intro tk i
    obtain ⟨r, hr, hok⟩ := hf (decodeStr v.uri ++ "&key=" ++ key)
    obtain ⟨ihres, ihhand, ihurls⟩ := ih (takeTicks (takeTicks tk).2).2 (i + 1)
    rw [downloadLoop]
    simp only [hr, hok, if_true]
    refine ⟨ihres, ?_, ?_⟩
    · simp only [handOffs, List.filterMap_append, List.filterMap_cons,
        List.length_cons, List.range'_succ, List.map_cons]
      rw [show (List.filterMap _ (takeTicks tk).1 : List String) = [] from
            handOffs_takeTicks,
          show (List.filterMap _ (takeTicks (takeTicks tk).2).1 :
            List String) = [] from handOffs_takeTicks]
      simpa [handOffs] using ihhand
    · simp only [fetchUrls, List.filterMap_append, List.filterMap_cons,
        List.map_cons]
      rw [show (List.filterMap _ (takeTicks tk).1 : List String) = [] from
            fetchUrls_takeTicks,
          show (List.filterMap _ (takeTicks (takeTicks tk).2).1 :
            List String) = [] from fetchUrls_takeTicks]
      simpa [fetchUrls] using ihurls

/-! ### Bridging lemmas for the full workflow -/

theorem contentBody_shape {key : String}
    {fetchFn : String → Except String FetchResponse} {tk : Ticker}
    {pollRes : Except String Operation} :
    ∀ e ∈ (contentBody key fetchFn tk pollRes).1, dlShape e := by
  cases pollRes with
  | error e0 => intro e he; simp [contentBody] at he
  | ok fin =>
    cases hre : fin.response with
    | none => intro e he; simp [contentBody, hre] at he
    | some vids =>
      by_cases hl : vids.length = 0
      · intro e he; simp [contentBody, hre, hl] at he
      · intro e he
        simp only [contentBody, hre, hl, if_false] at he
        exact downloadLoop_shape e he

theorem intervalCleared_not_dlShape : ¬ dlShape Event.intervalCleared := by
  rintro (⟨j, u, h⟩ | ⟨m, h⟩ | ⟨s, h⟩ | ⟨n, h⟩ | ⟨u, h⟩ | h) <;> simp at h

theorem submitRequest_not_dlShape {cfg : GenerateVideosParameters} :
    ¬ dlShape (Event.submitRequest cfg) := by
  rintro (⟨j, u, h⟩ | ⟨m, h⟩ | ⟨s, h⟩ | ⟨n, h⟩ | ⟨u, h⟩ | h) <;> simp at h

theorem pollWait_not_dlShape : ¬ dlShape Event.pollWait := by
  rintro (⟨j, u, h⟩ | ⟨m, h⟩ | ⟨s, h⟩ | ⟨n, h⟩ | ⟨u, h⟩ | h) <;> simp at h

theorem countPollWaits_contentBody {key : String}
    {fetchFn : String → Except String FetchResponse} {tk : Ticker}
    {pollRes : Except String Operation} :
    countPollWaits (contentBody key fetchFn tk pollRes).1 = 0 := by
  apply List.countP_eq_zero.mpr
  intro e he hw
  have hshape := contentBody_shape e he
  cases e <;> simp [isPollWait] at hw
  exact pollWait_not_dlShape hshape

theorem generateContent_run {key prompt bytes : String}
    {submit : GenerateVideosParameters → Except String Operation}
    {op0 : Operation} {polls : List (Except String Operation)}
    {fetchFn : String → Except String FetchResponse} {sched : List Nat}
    {pollEvs : List Event} {tk : Ticker} {pollRes : Except String Operation}
    (hsub : submit (buildConfig prompt bytes) = Except.ok op0)
    (hpoll : pollLoop op0 (sched, 0) polls = some (pollEvs, tk, pollRes)) :
    generateContent (some key) prompt bytes submit polls fetchFn sched =
      some (Event.submitRequest (buildConfig prompt bytes) ::
              Event.intervalSet ::
              (pollEvs ++ (contentBody key fetchFn tk pollRes).1 ++
                [Event.intervalCleared]),
            (contentBody key fetchFn tk pollRes).2) := by
  simp [generateContent, hsub, hpoll]

theorem generateContent_run_none {key prompt bytes : String}
    {submit : GenerateVideosParameters → Except String Operation}
    {op0 : Operation} {polls : List (Except String Operation)}
    {fetchFn : String → Except String FetchResponse} {sched : List Nat}
    (hsub : submit (buildConfig prompt bytes) = Except.ok op0)
    (hpoll : pollLoop op0 (sched, 0) polls = none) :
    generateContent (some key) prompt bytes submit polls fetchFn sched =
      none := by
  simp [generateContent, hsub, hpoll]

theorem generate_run {prompt bytes : String} {apiKey : Option String}
    {submit : GenerateVideosParameters → Except String Operation}
    {polls : List (Except String Operation)}
    {fetchFn : String → Except String FetchResponse} {sched : List Nat}
    {evs0 : List Event} {res : Except String Unit}
    (hne : jsTrim prompt ≠ "")
    (hgc : generateContent apiKey prompt bytes submit polls fetchFn sched =
      some (evs0, res)) :
    generate prompt bytes apiKey submit polls fetchFn sched =
      some (genPre ++ evs0 ++ genHandled res ++ genPost) := by
  simp [generate, hne, hgc]

theorem runEvents_append (s : UIState) (a b : List Event) :
    runEvents s (a ++ b) = runEvents (runEvents s a) b :=
  List.foldl_append ..

theorem runEvents_genPost (s : UIState) :
    (runEvents s genPost).generateDisabled = false ∧
    (runEvents s genPost).uploadDisabled = false ∧
    (runEvents s genPost).promptDisabled = false := by
  simp [runEvents, genPost, applyEvent]

/-! ### jsTrim characterization -/

theorem jsTrim_eq_empty_iff {s : String} :
    jsTrim s = "" ↔ ∀ c ∈ s.data, isJsWhitespace c = true := by
  constructor
  · intro h
    have hl : ((s.data.dropWhile isJsWhitespace).reverse.dropWhile
        isJsWhitespace).reverse = [] := congrArg String.data h
    rw [List.reverse_eq_nil_iff, List.dropWhile_eq_nil_iff] at hl
    intro c hc
    rcases List.mem_append.mp
        (by rw [List.takeWhile_append_dropWhile]; exact hc :
          c ∈ s.data.takeWhile isJsWhitespace ++
            s.data.dropWhile isJsWhitespace) with h1 | h1
    · exact List.mem_takeWhile_imp h1
    · exact hl c (List.mem_reverse.mpr h1)
  · intro h
    have : s.data.dropWhile isJsWhitespace = [] :=
      List.dropWhile_eq_nil_iff.mpr h
    simp [jsTrim, this]

theorem countPollWaits_downloadLoop {key : String}
    {fetchFn : String → Except String FetchResponse} {tk : Ticker}
    {videos : List Video} {i : Nat} :
    countPollWaits (downloadLoop key fetchFn tk videos i).1 = 0 := by
  apply List.countP_eq_zero.mpr
  intro e he hw
  have hshape := downloadLoop_shape e he
  cases e <;> simp [isPollWait] at hw
  exact pollWait_not_dlShape hshape

theorem buildConfig_fixed (prompt bytes : String) :
    (buildConfig prompt bytes).model = "veo-2.0-generate-001" ∧
      (buildConfig prompt bytes).numberOfVideos = 1 := by
  by_cases h : bytes.isEmpty <;> simp [buildConfig, h]

theorem submitRequest_not_mem_genHandled {cfg : GenerateVideosParameters}
    (res : Except String Unit) :
    Event.submitRequest cfg ∉ genHandled res := by
  cases res with
  | ok u => simp [genHandled]
  | error msg =>
    simp only [genHandled]
    cases classifyMessage
        (if msg = "" then "An unknown error occurred." else msg) <;> simp

theorem generateContent_submitRequests {apiKey : Option String}
    {prompt bytes : String}
    {submit : GenerateVideosParameters → Except String Operation}
    {polls : List (Except String Operation)}
    {fetchFn : String → Except String FetchResponse} {sched : List Nat}
    {evs0 : List Event} {res : Except String Unit}
    (h : generateContent apiKey prompt bytes submit polls fetchFn sched =
      some (evs0, res)) :
    ∀ cfg, Event.submitRequest cfg ∈ evs0 →
      cfg = buildConfig prompt bytes := by
  cases apiKey with
  | none =>
    simp only [generateContent, Option.some.injEq, Prod.mk.injEq] at h
    obtain ⟨rfl, -⟩ := h
    intro cfg hc
    simp at hc
  | some key =>
    cases hsub : submit (buildConfig prompt bytes) with
    | error e0 =>
      simp only [generateContent, hsub, Option.some.injEq,
        Prod.mk.injEq] at h
      obtain ⟨rfl, -⟩ := h
      intro cfg hc
      simp only [List.mem_singleton, Event.submitRequest.injEq] at hc
      exact hc
    | ok op0 =>
      cases hpoll : pollLoop op0 (sched, 0) polls with
      | none =>
        rw [generateContent_run_none hsub hpoll] at h
        exact absurd h (by simp)
      | some x =>
        obtain ⟨pollEvs, tk, pollRes⟩ := x
        rw [generateContent_run hsub hpoll] at h
        simp only [Option.some.injEq, Prod.mk.injEq] at h
        obtain ⟨rfl, -⟩ := h
        intro cfg hc
        rcases List.mem_cons.mp hc with h1 | h1
        · injection h1 with h2
        rcases List.mem_cons.mp h1 with h2 | h2
        · exact absurd h2 (by simp)
        rcases List.mem_append.mp h2 with h3 | h3
        · rcases List.mem_append.mp h3 with h4 | h4
          · rcases pollLoop_shape hpoll _ h4 with h5 | ⟨m, h5⟩ <;>
              simp at h5
          · exact absurd (contentBody_shape _ h4) submitRequest_not_dlShape
        · simp at h3

/-! ### Claim theorems -/

/-- C8: the credential-save operation removes the stored credential
when the input is empty or all whitespace (rather than storing an
empty string), and stores the trimmed credential for every other
input. -/
theorem saveKeyTrimsOrRemoves (input : String) (store : Option String) :
    ((∀ c ∈ input.data, isJsWhitespace c = true) →
      saveKeyClick input store = none) ∧
    ((¬ ∀ c ∈ input.data, isJsWhitespace c = true) →
      saveKeyClick input store = some (jsTrim input) ∧ jsTrim input ≠ "") := by
  constructor
  · intro h
    have he : jsTrim input = "" := jsTrim_eq_empty_iff.mpr h
    simp [saveKeyClick, he]
  · intro h
    have hne : jsTrim input ≠ "" := fun hc => h (jsTrim_eq_empty_iff.mp hc)
    simp [saveKeyClick, hne]

/-- Witness for C8 at concrete inputs: a blank entry removes the old
credential, a padded entry stores the trimmed one. -/
theorem saveKeyTrimsOrRemoves_witness :
    saveKeyClick " " (some "old") = none ∧
      saveKeyClick " k " (some "old") = some "k" := by
  constructor
  · exact (saveKeyTrimsOrRemoves " " (some "old")).1 (by decide)
  · have h := ((saveKeyTrimsOrRemoves " k " (some "old")).2 (by decide)).1
    rw [show jsTrim " k " = "k" by decide] at h
    exact h

/-- C9: every request submitted to the provider in any run of the
workflow carries the fixed model veo-2.0-generate-001 and asks for
exactly one video; no caller input reaches those fields. -/
theorem requestAlwaysOneVideoFixedModel {prompt bytes : String}
    {apiKey : Option String}
    {submit : GenerateVideosParameters → Except String Operation}
    {polls : List (Except String Operation)}
    {fetchFn : String → Except String FetchResponse} {sched : List Nat}
    {evs : List Event}
    (hrun : generate prompt bytes apiKey submit polls fetchFn sched =
      some evs) :
    ∀ cfg, Event.submitRequest cfg ∈ evs →
      cfg.model = "veo-2.0-generate-001" ∧ cfg.numberOfVideos = 1 := by
  intro cfg hc
  by_cases hp : jsTrim prompt = ""
  · unfold generate at hrun
    rw [if_pos hp] at hrun
    simp only [Option.some.injEq] at hrun
    subst hrun
    simp at hc
  · cases hgc : generateContent apiKey prompt bytes submit polls fetchFn
        sched with
    | none =>
      unfold generate at hrun
      rw [if_neg hp, hgc] at hrun
      exact absurd hrun (by simp)
    | some x =>
      obtain ⟨evs0, res⟩ := x
      rw [generate_run hp hgc] at hrun
      simp only [Option.some.injEq] at hrun
      subst hrun
      rcases List.mem_append.mp hc with h1 | h1
      rcases List.mem_append.mp h1 with h2 | h2
      rcases List.mem_append.mp h2 with h3 | h3
      · simp [genPre] at h3
      · have := generateContent_submitRequests hgc cfg h3
        subst this
        exact buildConfig_fixed prompt bytes
      · exact absurd h2 (submitRequest_not_mem_genHandled res)
      · simp [genPost] at h1

/-- Witness for C9: the request of a concrete successful run indeed
carries the fixed model and video count. -/
theorem requestAlwaysOneVideoFixedModel_witness :
    (⟨"veo-2.0-generate-001", "p", 1, none⟩ :
        GenerateVideosParameters).model = "veo-2.0-generate-001" ∧
    (⟨"veo-2.0-generate-001", "p", 1, none⟩ :
        GenerateVideosParameters).numberOfVideos = 1 :=
  @requestAlwaysOneVideoFixedModel "p" "" (some "k")
    (fun _ => Except.ok ⟨true, some [⟨"u"⟩]⟩) []
    (fun _ => Except.ok ⟨true, 200, "OK", "", "b"⟩) []
    ((generate "p" "" (some "k")
      (fun _ => Except.ok ⟨true, some [⟨"u"⟩]⟩) []
      (fun _ => Except.ok ⟨true, 200, "OK", "", "b"⟩) []).getD []) rfl
    ⟨"veo-2.0-generate-001", "p", 1, none⟩ (by decide)

/-- C10: a nonempty reference-image payload is always declared as
image/png in the submitted request, and handleFile accepts any file
whose type starts with image/ as the reference image. -/
theorem imagePayloadAlwaysPng {prompt bytes b0 : String} {f : JSFile}
    {enc : String → String}
    (hb : bytes ≠ "") (hf : jsStartsWith f.type "image/" = true) :
    (buildConfig prompt bytes).image = some ⟨bytes, "image/png"⟩ ∧
      handleFile enc f b0 = enc f.content := by
  constructor
  · have h : bytes.isEmpty = false := by
      cases hbe : bytes.isEmpty
      · rfl
      · exact absurd ((String.isEmpty_iff bytes).mp hbe) hb
    simp [buildConfig, h]
  · simp [handleFile, hf]

/-- Witness for C10: a JPEG file is accepted yet the payload is
declared image/png. -/
theorem imagePayloadAlwaysPng_witness :
    (buildConfig "p" "b").image = some ⟨"b", "image/png"⟩ ∧
      handleFile id ⟨"image/jpeg", "c"⟩ "" = id "c" :=
  imagePayloadAlwaysPng (by decide) (by decide)

/-- C5 (amended): materialization fetches the decoded provider URI
with the credential appended as a query parameter, and a non-success
response fails with an error carrying the response status and status
text while the response body text is logged to the console. -/
theorem materializeAppendsKeyFailsWithStatus {key : String}
    {fetchFn : String → Except String FetchResponse} {v : Video}
    {rest : List Video} {r : FetchResponse} {tk : Ticker} {i : Nat}
    (hr : fetchFn (decodeStr v.uri ++ "&key=" ++ key) = Except.ok r)
    (hok : r.ok = false) :
    (downloadLoop key fetchFn tk (v :: rest) i).2.2 =
        Except.error ("Failed to download video: " ++ toString r.status ++
          " " ++ r.statusText) ∧
      Event.fetchAttempt i (decodeStr v.uri ++ "&key=" ++ key) ∈
        (downloadLoop key fetchFn tk (v :: rest) i).1 ∧
      Event.logError r.bodyText ∈
        (downloadLoop key fetchFn tk (v :: rest) i).1 := by
  simp only [downloadLoop, hr, hok]
  simp

/-- Witness for C5 at a concrete failing retrieval. -/
theorem materializeAppendsKeyFailsWithStatus_witness :
    (downloadLoop "k"
        (fun _ => Except.ok ⟨false, 403, "Forbidden", "B", "x"⟩)
        ([], 0) [⟨"u"⟩] 0).2.2 =
      Except.error ("Failed to download video: " ++ toString 403 ++ " " ++
        "Forbidden") ∧
    Event.fetchAttempt 0 (decodeStr "u" ++ "&key=" ++ "k") ∈
      (downloadLoop "k"
        (fun _ => Except.ok ⟨false, 403, "Forbidden", "B", "x"⟩)
        ([], 0) [⟨"u"⟩] 0).1 ∧
    Event.logError "B" ∈
      (downloadLoop "k"
        (fun _ => Except.ok ⟨false, 403, "Forbidden", "B", "x"⟩)
        ([], 0) [⟨"u"⟩] 0).1 :=
  @materializeAppendsKeyFailsWithStatus "k"
    (fun _ => Except.ok ⟨false, 403, "Forbidden", "B", "x"⟩) ⟨"u"⟩ []
    ⟨false, 403, "Forbidden", "B", "x"⟩ ([], 0) 0 rfl rfl

/-- C5 counterexample: the thrown download error carries the status
and statusText but not the response body text, which is only logged;
so the error does not carry the body text as the claim states. -/
theorem downloadErrorOmitsBodyText :
    (downloadLoop "k"
        (fun _ => Except.ok ⟨false, 404, "Not Found", "BODYTEXT", ""⟩)
        ([], 0) [⟨"u"⟩] 0).2.2 =
      Except.error "Failed to download video: 404 Not Found" ∧
    includesStr "Failed to download video: 404 Not Found" "404" = true ∧
    includesStr "Failed to download video: 404 Not Found" "BODYTEXT" =
      false := by
  exact ⟨rfl, by decide, by decide⟩

/-- C1 counterexample: on a structured payload with an unrecognised
code the classification described by the spec surfaces the inner
message, while the code never attempts the structured parse and
surfaces the whole raw text, so the two differ. -/
theorem classifyHasNoStructuredTier :
    specClassifyTwoTier c1msg = ErrClass.other "internal" ∧
    classifyMessage c1msg = ErrClass.other c1msg ∧
    classifyMessage c1msg ≠ specClassifyTwoTier c1msg := by
  exact ⟨by decide, by decide, by decide⟩

/-- C6: reaching Complete with an absent or empty result list fails
with the no-videos error and performs no download attempts and no
hand-offs. -/
theorem emptyCompleteFailsWithoutDownloads {key prompt bytes : String}
    {submit : GenerateVideosParameters → Except String Operation}
    {pendings : List Operation} {fin : Operation}
    {fetchFn : String → Except String FetchResponse} {sched : List Nat}
    (hsub : submit (buildConfig prompt bytes) =
      Except.ok (firstStatus pendings fin))
    (hp : ∀ op ∈ pendings, op.done = false)
    (hdone : fin.done = true)
    (hempty : fin.response = none ∨ fin.response = some []) :
    ∃ evs,
      generateContent (some key) prompt bytes submit
          (laterStatuses pendings fin) fetchFn sched =
        some (evs, Except.error "No videos generated") ∧
      fetchUrls evs = [] ∧ handOffs evs = [] := by
  obtain ⟨pollEvs, tk, hpoll, -⟩ := pollLoop_script hdone pendings (sched, 0) hp
  have hbody : contentBody key fetchFn tk (Except.ok fin) =
      ([], Except.error "No videos generated") := by
    rcases hempty with he | he <;> simp [contentBody, he]
  refine ⟨Event.submitRequest (buildConfig prompt bytes) ::
    Event.intervalSet :: (pollEvs ++ [Event.intervalCleared]), ?_, ?_, ?_⟩
  · rw [generateContent_run hsub hpoll, hbody]
    simp
  · have h1 := fetchUrls_pollLoop hpoll
    simp only [fetchUrls, List.filterMap_cons, List.filterMap_append] at h1 ⊢
    simp [h1]
  · have h1 := handOffs_pollLoop hpoll
    simp only [handOffs, List.filterMap_cons, List.filterMap_append] at h1 ⊢
    simp [h1]

/-- Witness for C6 at a concrete run completing with no videos. -/
theorem emptyCompleteFailsWithoutDownloads_witness :
    ∃ evs,
      generateContent (some "k") "p" ""
          (fun _ => Except.ok ⟨true, none⟩)
          (laterStatuses [] ⟨true, none⟩)
          (fun _ => Except.ok ⟨true, 200, "OK", "", "b"⟩) [] =
        some (evs, Except.error "No videos generated") ∧
      fetchUrls evs = [] ∧ handOffs evs = [] :=
  @emptyCompleteFailsWithoutDownloads "k" "p" ""
    (fun _ => Except.ok ⟨true, none⟩) [] ⟨true, none⟩
    (fun _ => Except.ok ⟨true, 200, "OK", "", "b"⟩) [] rfl
    (by intro op h; simp at h) rfl (Or.inl rfl)

/-- C3: on every path through the poll loop — normal completion,
provider failure, or a thrown poll, result-check or download error —
the reporter interval is cleared exactly once, as the very last event
before the workflow reports its outcome; in particular no status
callback tick can occur after the loop resolves. -/
theorem reporterClearedOnceEveryPath {key prompt bytes : String}
    {submit : GenerateVideosParameters → Except String Operation}
    {op0 : Operation} {polls : List (Except String Operation)}
    {fetchFn : String → Except String FetchResponse} {sched : List Nat}
    {evs : List Event} {res : Except String Unit}
    (hsub : submit (buildConfig prompt bytes) = Except.ok op0)
    (hrun : generateContent (some key) prompt bytes submit polls fetchFn
      sched = some (evs, res)) :
    ∃ pre, evs = pre ++ [Event.intervalCleared] ∧
      Event.intervalCleared ∉ pre := by
  cases hpoll : pollLoop op0 (sched, 0) polls with
  | none =>
    rw [generateContent_run_none hsub hpoll] at hrun
    exact absurd hrun (by simp)
  | some x =>
    obtain ⟨pollEvs, tk, pollRes⟩ := x
    rw [generateContent_run hsub hpoll] at hrun
    simp only [Option.some.injEq, Prod.mk.injEq] at hrun
    obtain ⟨rfl, -⟩ := hrun
    refine ⟨Event.submitRequest (buildConfig prompt bytes) ::
      Event.intervalSet ::
      (pollEvs ++ (contentBody key fetchFn tk pollRes).1), ?_, ?_⟩
    · simp
    · intro hmem
      rcases List.mem_cons.mp hmem with h1 | h1
      · exact absurd h1 (by simp)
      rcases List.mem_cons.mp h1 with h2 | h2
      · exact absurd h2 (by simp)
      rcases List.mem_append.mp h2 with h3 | h3
      · rcases pollLoop_shape hpoll _ h3 with h4 | ⟨m, h4⟩ <;> simp at h4
      · exact intervalCleared_not_dlShape (contentBody_shape _ h3)

/-- Witness for C3 at a concrete successful run. -/
theorem reporterClearedOnceEveryPath_witness :
    ∃ pre,
      ([Event.submitRequest ⟨"veo-2.0-generate-001", "p", 1, none⟩,
        Event.intervalSet, Event.fetchAttempt 0 "u&key=k",
        Event.handOff "video0.mp4", Event.setVideoSrc "blob:b",
        Event.setVideoDisplay "block", Event.intervalCleared] :
          List Event) = pre ++ [Event.intervalCleared] ∧
      Event.intervalCleared ∉ pre :=
  @reporterClearedOnceEveryPath "k" "p" ""
    (fun _ => Except.ok ⟨true, some [⟨"u"⟩]⟩) ⟨true, some [⟨"u"⟩]⟩ []
    (fun _ => Except.ok ⟨true, 200, "OK", "", "b"⟩) []
    [Event.submitRequest ⟨"veo-2.0-generate-001", "p", 1, none⟩,
     Event.intervalSet, Event.fetchAttempt 0 "u&key=k",
     Event.handOff "video0.mp4", Event.setVideoSrc "blob:b",
     Event.setVideoDisplay "block", Event.intervalCleared]
    (Except.ok ()) rfl rfl

/-- C2: with a non-empty prompt, a provider script of N pending
reports followed by Complete with K nonempty results re-queries the
status once per pending report and materializes exactly the K results
in provider order. -/
theorem pendingThenCompleteMaterializesAll {key prompt bytes : String}
    {submit : GenerateVideosParameters → Except String Operation}
    {pendings : List Operation} {videos : List Video}
    {fetchFn : String → Except String FetchResponse} {sched : List Nat}
    (hsub : submit (buildConfig prompt bytes) =
      Except.ok (firstStatus pendings ⟨true, some videos⟩))
    (hp : ∀ op ∈ pendings, op.done = false)
    (hv : videos ≠ [])
    (hf : ∀ u, ∃ r, fetchFn u = Except.ok r ∧ r.ok = true) :
    ∃ evs,
      generateContent (some key) prompt bytes submit
          (laterStatuses pendings ⟨true, some videos⟩) fetchFn sched =
        some (evs, Except.ok ()) ∧
      handOffs evs = (List.range videos.length).map
          (fun i => "video" ++ toString i ++ ".mp4") ∧
      fetchUrls evs =
        videos.map (fun v => decodeStr v.uri ++ "&key=" ++ key) ∧
      countPollWaits evs = pendings.length := by
  obtain ⟨pollEvs, tk, hpoll, hcount⟩ :=
    @pollLoop_script ⟨true, some videos⟩ rfl pendings (sched, 0) hp
  obtain ⟨dres, dhand, durls⟩ := downloadLoop_all_ok hf videos tk 0
  have hlen : ¬ (videos.length = 0) := fun h => hv (List.length_eq_zero.mp h)
  have hbody : contentBody key fetchFn tk (Except.ok ⟨true, some videos⟩) =
      ((downloadLoop key fetchFn tk videos 0).1,
       (downloadLoop key fetchFn tk videos 0).2.2) := by
    simp [contentBody, hlen]
  refine ⟨Event.submitRequest (buildConfig prompt bytes) ::
    Event.intervalSet ::
    (pollEvs ++ (downloadLoop key fetchFn tk videos 0).1 ++
      [Event.intervalCleared]), ?_, ?_, ?_, ?_⟩
  · rw [generateContent_run hsub hpoll, hbody, dres]
  · have h1 := handOffs_pollLoop hpoll
    rw [List.range_eq_range']
    simp only [handOffs, List.filterMap_cons, List.filterMap_append] at h1 dhand ⊢
    simp [h1, dhand]
  · have h1 := fetchUrls_pollLoop hpoll
    simp only [fetchUrls, List.filterMap_cons, List.filterMap_append] at h1 durls ⊢
    simp [h1, durls]
  · have h2 : countPollWaits (downloadLoop key fetchFn tk videos 0).1 = 0 :=
      countPollWaits_downloadLoop
    unfold countPollWaits at hcount h2 ⊢
    rw [show Event.submitRequest (buildConfig prompt bytes) ::
        Event.intervalSet ::
        (pollEvs ++ (downloadLoop key fetchFn tk videos 0).1 ++
          [Event.intervalCleared]) =
        [Event.submitRequest (buildConfig prompt bytes),
          Event.intervalSet] ++
        (pollEvs ++ ((downloadLoop key fetchFn tk videos 0).1 ++
          [Event.intervalCleared])) from by simp,
      List.countP_append, List.countP_append, List.countP_append,
      hcount, h2]
    simp [List.countP_cons, List.countP_nil, isPollWait]

/-- Witness for C2: one pending report, then Complete with one
video. -/
theorem pendingThenCompleteMaterializesAll_witness :
    ∃ evs,
      generateContent (some "k") "p" ""
          (fun _ => Except.ok ⟨false, none⟩)
          (laterStatuses [⟨false, none⟩] ⟨true, some [⟨"u"⟩]⟩)
          (fun _ => Except.ok ⟨true, 200, "OK", "", "b"⟩) [] =
        some (evs, Except.ok ()) ∧
      handOffs evs = (List.range ([⟨"u"⟩] : List Video).length).map
          (fun i => "video" ++ toString i ++ ".mp4") ∧
      fetchUrls evs = ([⟨"u"⟩] : List Video).map
          (fun v => decodeStr v.uri ++ "&key=" ++ "k") ∧
      countPollWaits evs = ([⟨false, none⟩] : List Operation).length :=
  @pendingThenCompleteMaterializesAll "k" "p" ""
    (fun _ => Except.ok ⟨false, none⟩) [⟨false, none⟩] [⟨"u"⟩]
    (fun _ => Except.ok ⟨true, 200, "OK", "", "b"⟩) [] rfl
    (by intro op h; rw [List.mem_singleton] at h; subst h; rfl)
    (by simp)
    (fun u => ⟨⟨true, 200, "OK", "", "b"⟩, rfl, rfl⟩)

/-- The download loop on three videos where the second retrieval
fails: the trace decomposes as the completed first download followed
by the failing second attempt, after which only reporter ticks and the
error log can appear. -/
theorem downloadLoop_second_fails {key : String}
    {fetchFn : String → Except String FetchResponse} {v1 v2 v3 : Video}
    {r1 : FetchResponse}
    (h1 : fetchFn (decodeStr v1.uri ++ "&key=" ++ key) = Except.ok r1)
    (h1ok : r1.ok = true)
    (hfail :
      (∃ e, fetchFn (decodeStr v2.uri ++ "&key=" ++ key) =
        Except.error e) ∨
      (∃ r2, fetchFn (decodeStr v2.uri ++ "&key=" ++ key) =
        Except.ok r2 ∧ r2.ok = false)) :
    ∀ tk, ∃ tailEvs em,
      (downloadLoop key fetchFn tk [v1, v2, v3] 0).1 =
        Event.fetchAttempt 0 (decodeStr v1.uri ++ "&key=" ++ key) ::
          ((takeTicks tk).1 ++ (takeTicks (takeTicks tk).2).1 ++
            (Event.handOff "video0.mp4" ::
             Event.setVideoSrc (createObjectURL r1.blob) ::
             Event.setVideoDisplay "block" ::
             Event.fetchAttempt 1 (decodeStr v2.uri ++ "&key=" ++ key) ::
             tailEvs)) ∧
      (downloadLoop key fetchFn tk [v1, v2, v3] 0).2.2 =
        Except.error em ∧
      ∀ e ∈ tailEvs, (∃ m, e = Event.reporterTick m) ∨
        ∃ s, e = Event.logError s := by
  intro tk
  rcases hfail with ⟨e0, h2⟩ | ⟨r2, h2, h2ok⟩
  · refine ⟨(takeTicks (takeTicks (takeTicks tk).2).2).1, e0, ?_, ?_, ?_⟩
    · simp [downloadLoop, h1, h1ok, h2]
      rfl
    · simp [downloadLoop, h1, h1ok, h2]
    · intro e he
      exact Or.inl (takeTicks_shape e he)
  · refine ⟨(takeTicks (takeTicks (takeTicks tk).2).2).1 ++
      (takeTicks (takeTicks (takeTicks (takeTicks tk).2).2).2).1 ++
      [Event.logError r2.bodyText],
      "Failed to download video: " ++ toString r2.status ++ " " ++
        r2.statusText, ?_, ?_, ?_⟩
    · simp [downloadLoop, h1, h1ok, h2, h2ok]
      rfl
    · simp [downloadLoop, h1, h1ok, h2, h2ok]
    · intro e he
      rcases List.mem_append.mp he with h3 | h3
      · rcases List.mem_append.mp h3 with h4 | h4
        · exact Or.inl (takeTicks_shape e h4)
        · exact Or.inl (takeTicks_shape e h4)
      · simp only [List.mem_singleton] at h3
        exact Or.inr ⟨_, h3⟩

/-- C4: downloads are strictly sequential in provider order: when the
second of three results fails to materialize, the first result has
already been handed off before the second attempt, the third is never
attempted, and neither completed attempt is retried. -/
theorem downloadsSequentialStopAtFailure {key prompt bytes : String}
    {submit : GenerateVideosParameters → Except String Operation}
    {pendings : List Operation} {v1 v2 v3 : Video}
    {fetchFn : String → Except String FetchResponse} {sched : List Nat}
    {r1 : FetchResponse}
    (hsub : submit (buildConfig prompt bytes) =
      Except.ok (firstStatus pendings ⟨true, some [v1, v2, v3]⟩))
    (hp : ∀ op ∈ pendings, op.done = false)
    (h1 : fetchFn (decodeStr v1.uri ++ "&key=" ++ key) = Except.ok r1)
    (h1ok : r1.ok = true)
    (hfail :
      (∃ e, fetchFn (decodeStr v2.uri ++ "&key=" ++ key) =
        Except.error e) ∨
      (∃ r2, fetchFn (decodeStr v2.uri ++ "&key=" ++ key) =
        Except.ok r2 ∧ r2.ok = false)) :
    ∃ evs em,
      generateContent (some key) prompt bytes submit
          (laterStatuses pendings ⟨true, some [v1, v2, v3]⟩) fetchFn
          sched =
        some (evs, Except.error em) ∧
      handOffs evs = ["video0.mp4"] ∧
      (∃ a b, evs = a ++ Event.handOff "video0.mp4" :: b ∧
        Event.fetchAttempt 1 (decodeStr v2.uri ++ "&key=" ++ key) ∈ b) ∧
      (∀ u, Event.fetchAttempt 2 u ∉ evs) ∧
      countFetchIdx 0 evs = 1 ∧ countFetchIdx 1 evs = 1 := by
  obtain ⟨pollEvs, tk, hpoll, -⟩ :=
    @pollLoop_script ⟨true, some [v1, v2, v3]⟩ rfl pendings (sched, 0) hp
  obtain ⟨tailEvs, em, hdl, hres, htail⟩ :=
    downloadLoop_second_fails h1 h1ok hfail tk
  have hbody : contentBody key fetchFn tk
      (Except.ok ⟨true, some [v1, v2, v3]⟩) =
      ((downloadLoop key fetchFn tk [v1, v2, v3] 0).1,
       (downloadLoop key fetchFn tk [v1, v2, v3] 0).2.2) := by
    simp [contentBody]
  have hcnt : ∀ j, List.countP (isFetchIdx j) tailEvs = 0 := fun j =>
    List.countP_eq_zero.mpr (fun e he hw => by
      rcases htail e he with ⟨m, rfl⟩ | ⟨s, rfl⟩ <;> simp [isFetchIdx] at hw)
  have hcp : ∀ j, List.countP (isFetchIdx j) pollEvs = 0 := fun j =>
    List.countP_eq_zero.mpr (fun e he hw => by
      rcases pollLoop_shape hpoll e he with rfl | ⟨m, rfl⟩ <;>
        simp [isFetchIdx] at hw)
  have htt : ∀ (j : Nat) (tkx : Ticker),
      List.countP (isFetchIdx j) (takeTicks tkx).1 = 0 := fun j tkx =>
    List.countP_eq_zero.mpr (fun e he hw => by
      obtain ⟨m, rfl⟩ := takeTicks_shape e he
      simp [isFetchIdx] at hw)
  have hevs2 : countFetchIdx 2
      (Event.submitRequest (buildConfig prompt bytes) ::
        Event.intervalSet ::
        (pollEvs ++ (downloadLoop key fetchFn tk [v1, v2, v3] 0).1 ++
          [Event.intervalCleared])) = 0 := by
    rw [hdl]
    simp [countFetchIdx, List.countP_cons, List.countP_append,
      List.countP_nil, isFetchIdx, hcnt, hcp, htt]
  refine ⟨Event.submitRequest (buildConfig prompt bytes) ::
      Event.intervalSet ::
      (pollEvs ++ (downloadLoop key fetchFn tk [v1, v2, v3] 0).1 ++
        [Event.intervalCleared]), em, ?_, ?_, ?_, ?_, ?_, ?_⟩
  · rw [generateContent_run hsub hpoll, hbody, hres]
  · have hpoll0 := handOffs_pollLoop hpoll
    have htail0 : handOffs tailEvs = [] := List.filterMap_eq_nil_iff.mpr
      (fun e he => by rcases htail e he with ⟨m, rfl⟩ | ⟨s, rfl⟩ <;> rfl)
    have ht1 : handOffs (takeTicks tk).1 = [] := handOffs_takeTicks
    have ht2 : handOffs (takeTicks (takeTicks tk).2).1 = [] :=
      handOffs_takeTicks
    rw [hdl]
    simp only [handOffs, List.filterMap_cons,
      List.filterMap_append] at hpoll0 htail0 ht1 ht2 ⊢
    simp [hpoll0, htail0, ht1, ht2]
  · refine ⟨Event.submitRequest (buildConfig prompt bytes) ::
      Event.intervalSet :: (pollEvs ++
        (Event.fetchAttempt 0 (decodeStr v1.uri ++ "&key=" ++ key) ::
          ((takeTicks tk).1 ++ (takeTicks (takeTicks tk).2).1))),
      Event.setVideoSrc (createObjectURL r1.blob) ::
        Event.setVideoDisplay "block" ::
        Event.fetchAttempt 1 (decodeStr v2.uri ++ "&key=" ++ key) ::
        (tailEvs ++ [Event.intervalCleared]), ?_, ?_⟩
    · rw [hdl]
      simp
    · simp
  · intro u hu
    have hnot := List.countP_eq_zero.mp hevs2 _ hu
    simp [isFetchIdx] at hnot
  · rw [hdl]
    simp [countFetchIdx, List.countP_cons, List.countP_append,
      List.countP_nil, isFetchIdx, hcnt, hcp, htt]
  · rw [hdl]
    simp [countFetchIdx, List.countP_cons, List.countP_append,
      List.countP_nil, isFetchIdx, hcnt, hcp, htt]

/-- Witness for C4 at a concrete run where the second of three
retrievals returns a non-success response. -/
theorem downloadsSequentialStopAtFailure_witness :
    ∃ evs em,
      generateContent (some "k") "p" ""
          (fun _ => Except.ok ⟨true, some [⟨"a"⟩, ⟨"b"⟩, ⟨"c"⟩]⟩)
          (laterStatuses [] ⟨true, some [⟨"a"⟩, ⟨"b"⟩, ⟨"c"⟩]⟩)
          (fun u => if u = "b&key=k" then
            Except.ok ⟨false, 500, "ISE", "B", ""⟩
          else Except.ok ⟨true, 200, "OK", "", "x"⟩) [] =
        some (evs, Except.error em) ∧
      handOffs evs = ["video0.mp4"] ∧
      (∃ a b, evs = a ++ Event.handOff "video0.mp4" :: b ∧
        Event.fetchAttempt 1 (decodeStr "b" ++ "&key=" ++ "k") ∈ b) ∧
      (∀ u, Event.fetchAttempt 2 u ∉ evs) ∧
      countFetchIdx 0 evs = 1 ∧ countFetchIdx 1 evs = 1 :=
  @downloadsSequentialStopAtFailure "k" "p" ""
    (fun _ => Except.ok ⟨true, some [⟨"a"⟩, ⟨"b"⟩, ⟨"c"⟩]⟩) [] ⟨"a"⟩ ⟨"b"⟩
    ⟨"c"⟩
    (fun u => if u = "b&key=k" then Except.ok ⟨false, 500, "ISE", "B", ""⟩
      else Except.ok ⟨true, 200, "OK", "", "x"⟩) []
    ⟨true, 200, "OK", "", "x"⟩ rfl (by intro op h; simp at h) rfl rfl
    (Or.inr ⟨⟨false, 500, "ISE", "B", ""⟩, rfl, rfl⟩)

/-- C1 (amended): the error-classification step attempts no
structured parse; it applies substring matching directly to the raw
message: a message containing 429 or, lower-cased, quota shows the
quota banner with the quota status line; otherwise one containing 400
or, lower-cased, api key shows the credential prompt; otherwise the
raw message text is surfaced verbatim. -/
theorem generateClassifiesBySubstringOnly {prompt bytes key m : String}
    {polls : List (Except String Operation)}
    {fetchFn : String → Except String FetchResponse} {sched : List Nat}
    (s0 : UIState)
    (hprompt : jsTrim prompt ≠ "") (hm : m ≠ "") :
    ∃ evs,
      generate prompt bytes (some key) (fun _ => Except.error m) polls
          fetchFn sched = some evs ∧
      ((includesStr m "429" = true ∨
          includesStr (toLowerAscii m) "quota" = true) →
        (runEvents s0 evs).quotaDisplay = "block" ∧
        (runEvents s0 evs).statusText =
          "Quota limit reached. Please try again later or add your own API key.") ∧
      (includesStr m "429" = false →
        includesStr (toLowerAscii m) "quota" = false →
        (includesStr m "400" = true ∨
          includesStr (toLowerAscii m) "api key" = true) →
        (runEvents s0 evs).statusText =
          "Request failed. Please check your API key and prompt, then try again." ∧
        (runEvents s0 evs).modalHidden = false) ∧
      (includesStr m "429" = false →
        includesStr (toLowerAscii m) "quota" = false →
        includesStr m "400" = false →
        includesStr (toLowerAscii m) "api key" = false →
        (runEvents s0 evs).statusText = m) := by
  have hgc : generateContent (some key) prompt bytes
      (fun _ => Except.error m) polls fetchFn sched =
      some ([Event.submitRequest (buildConfig prompt bytes)],
        Except.error m) := by
    simp [generateContent]
  refine ⟨_, generate_run hprompt hgc, ?_, ?_, ?_⟩
  · intro hq
    have hcl : classifyMessage m = ErrClass.quota := by
      rcases hq with hq | hq <;> simp [classifyMessage, hq]
    simp [runEvents, genPre, genPost, genHandled, applyEvent, hm, hcl]
  · intro h1 h2 h3
    have hcl : classifyMessage m = ErrClass.badKey := by
      rcases h3 with h3 | h3 <;> simp [classifyMessage, h1, h2, h3]
    simp [runEvents, genPre, genPost, genHandled, applyEvent, hm, hcl]
  · intro h1 h2 h3 h4
    have hcl : classifyMessage m = ErrClass.other m := by
      simp [classifyMessage, h1, h2, h3, h4]
    simp [runEvents, genPre, genPost, genHandled, applyEvent, hm, hcl]

/-- Witness for the amended C1: a bare quota message, which no
structured parse would accept, still raises the quota banner. -/
theorem generateClassifiesBySubstringOnly_witness :
    ∃ evs,
      generate "p" "" (some "k") (fun _ => Except.error "quota") []
          (fun _ => Except.error "down") [] = some evs ∧
      (runEvents ⟨"", "none", "", false, false, false, "Generate", true,
        "none", true⟩ evs).quotaDisplay = "block" :=
  match @generateClassifiesBySubstringOnly "p" "" "k" "quota" []
      (fun _ => Except.error "down") []
      ⟨"", "none", "", false, false, false, "Generate", true, "none",
        true⟩ (by decide) (by decide) with
  | ⟨evs, hgen, hq, _, _⟩ => ⟨evs, hgen, (hq (Or.inr (by decide))).1⟩

/-- C7: after every generation attempt concludes — success or any
classified failure — the generate button, file input and prompt field
are re-enabled; no exit path leaves them disabled. -/
theorem controlsAlwaysReenabled {prompt bytes : String}
    {apiKey : Option String}
    {submit : GenerateVideosParameters → Except String Operation}
    {polls : List (Except String Operation)}
    {fetchFn : String → Except String FetchResponse} {sched : List Nat}
    {s0 : UIState} {evs : List Event}
    (h0g : s0.generateDisabled = false) (h0u : s0.uploadDisabled = false)
    (h0p : s0.promptDisabled = false)
    (hrun : generate prompt bytes apiKey submit polls fetchFn sched =
      some evs) :
    (runEvents s0 evs).generateDisabled = false ∧
    (runEvents s0 evs).uploadDisabled = false ∧
    (runEvents s0 evs).promptDisabled = false := by
  by_cases hp : jsTrim prompt = ""
  · unfold generate at hrun
    rw [if_pos hp] at hrun
    simp only [Option.some.injEq] at hrun
    subst hrun
    simp [runEvents, applyEvent, h0g, h0u, h0p]
  · cases hgc : generateContent apiKey prompt bytes submit polls fetchFn
        sched with
    | none =>
      unfold generate at hrun
      rw [if_neg hp, hgc] at hrun
      exact absurd hrun (by simp)
    | some x =>
      obtain ⟨evs0, res⟩ := x
      rw [generate_run hp hgc] at hrun
      simp only [Option.some.injEq] at hrun
      subst hrun
      rw [show genPre ++ evs0 ++ genHandled res ++ genPost =
        (genPre ++ evs0 ++ genHandled res) ++ genPost from by simp,
        runEvents_append]
      exact runEvents_genPost _

/-- Witness for C7 at a concrete successful run. -/
theorem controlsAlwaysReenabled_witness :
    (runEvents ⟨"", "none", "", false, false, false, "Generate", true,
        "none", true⟩
      ((generate "p" "" (some "k")
        (fun _ => Except.ok ⟨true, some [⟨"u"⟩]⟩) []
        (fun _ => Except.ok ⟨true, 200, "OK", "", "b"⟩) []).getD
          [])).generateDisabled = false ∧
    (runEvents ⟨"", "none", "", false, false, false, "Generate", true,
        "none", true⟩
      ((generate "p" "" (some "k")
        (fun _ => Except.ok ⟨true, some [⟨"u"⟩]⟩) []
        (fun _ => Except.ok ⟨true, 200, "OK", "", "b"⟩) []).getD
          [])).uploadDisabled = false ∧
    (runEvents ⟨"", "none", "", false, false, false, "Generate", true,
        "none", true⟩
      ((generate "p" "" (some "k")
        (fun _ => Except.ok ⟨true, some [⟨"u"⟩]⟩) []
        (fun _ => Except.ok ⟨true, 200, "OK", "", "b"⟩) []).getD
          [])).promptDisabled = false :=
  @controlsAlwaysReenabled "p" "" (some "k")
    (fun _ => Except.ok ⟨true, some [⟨"u"⟩]⟩) []
    (fun _ => Except.ok ⟨true, 200, "OK", "", "b"⟩) []
    ⟨"", "none", "", false, false, false, "Generate", true, "none", true⟩
    ((generate "p" "" (some "k")
      (fun _ => Except.ok ⟨true, some [⟨"u"⟩]⟩) []
      (fun _ => Except.ok ⟨true, 200, "OK", "", "b"⟩) []).getD [])
    rfl rfl rfl rfl

end Veo
